import Mathlib

/-!
Error classification and container lifecycle of docker-wrapper: a shallow embedding
of `docker.go`.

* Go `string` values are Lean `String`s; `len(s) == 0` is `s.length = 0` (both
  the byte length and the character count vanish exactly on the empty string).
* Go `error` values are terms of `GoError`; `nil` is `none` in `Option GoError`.
* `regexp.MustCompile(p).MatchString(s)` is embedded for the fragment of the
  syntax the three package patterns use (literal characters, `.` and `*`),
  executed with Brzozowski derivatives.
* `exec.Command(name, args...).CombinedOutput()` is a call to an `Engine`, a
  function from the history of invocations and the current invocation to the
  combined output and the invocation error; every invocation is appended to a
  log.
-/

namespace DockerWrapper

/-! ## Errors -/

/-- The package-level error variables created by `errors.New` (docker.go, lines 11-25).
Each is a distinct pointer. -/
inductive Sentinel where
  | ErrIdNotSet
  | ErrStarted
  | ErrNotExist
  | ErrNotRunning
  | ErrNameIsInUse
  | ErrParse
  | ErrImageNotSet
deriving DecidableEq, Repr

/-- The text given to `errors.New` for each package-level error variable. -/
def Sentinel.Error : Sentinel → String
  | .ErrIdNotSet => "id not set"
  | .ErrStarted => "container is started"
  | .ErrNotExist => "container not exist"
  | .ErrNotRunning => "container not running"
  | .ErrNameIsInUse => "container with name is already in use"
  | .ErrParse => "parse output error"
  | .ErrImageNotSet => "image not set"

/-- Go `error` values that occur in the package.
* `sentinel v`: the value of the package variable `v`;
* `errorf msg`: a value freshly allocated by `fmt.Errorf(msg)` (no `%w` verb);
* `invocation msg`: an error returned by `cmd.CombinedOutput()` (an `*exec.ExitError`,
  `*exec.Error`, ...), which never wraps a variable of this package;
* `DockerError Err Out`: a freshly allocated `&DockerError{Err, Out}`. -/
inductive GoError where
  | sentinel (v : Sentinel)
  | errorf (msg : String)
  | invocation (msg : String)
  | DockerError (Err : GoError) (Out : String)
deriving DecidableEq, Repr

abbrev ErrIdNotSet : GoError := .sentinel .ErrIdNotSet
abbrev ErrStarted : GoError := .sentinel .ErrStarted
abbrev ErrNotExist : GoError := .sentinel .ErrNotExist
abbrev ErrNotRunning : GoError := .sentinel .ErrNotRunning
abbrev ErrNameIsInUse : GoError := .sentinel .ErrNameIsInUse
abbrev ErrParse : GoError := .sentinel .ErrParse
abbrev ErrImageNotSet : GoError := .sentinel .ErrImageNotSet

/-- The method `Error()`; for `*DockerError` it is docker.go, lines 34-39. -/
def GoError.Error : GoError → String
  | .sentinel v => v.Error
  | .errorf msg => msg
  | .invocation msg => msg
  | .DockerError Err Out =>
    if Out.length = 0 then Err.Error else Err.Error ++ ": " ++ Out

/-- The test `errors.Is(err, target)` for a non-nil `err` and a package variable `target`:
the chain of `Unwrap()` is followed (`*DockerError` unwraps to its `Err`, line 32) and
each link is compared with `target` by pointer. Freshly allocated values are never
identical to a package variable. -/
def errorsIs : GoError → Sentinel → Bool
  | .sentinel v, target => v = target
  | .errorf _, _ => false
  | .invocation _, _ => false
  | .DockerError Err _, target => errorsIs Err target

/-! ## Regular expressions -/

/-- Regular expressions: the fragment of the `regexp` syntax used by the package
(literals, `.`, `*`, concatenation), closed under derivatives. -/
inductive Regexp where
  | nothing
  | eps
  | lit (c : Char)
  | dot
  | cat (r s : Regexp)
  | alt (r s : Regexp)
  | star (r : Regexp)
deriving DecidableEq, Repr

namespace Regexp

/-- One pattern character as an atom: `.` is any character except newline,
every other character stands for itself. -/
def atom (c : Char) : Regexp :=
  if c = '.' then dot else lit c

/-- Parser of a pattern made of literal characters, `.` and postfix `*`: the first
argument is the atom read last, to which a following `*` applies. -/
def parse : Option Regexp → List Char → Regexp
  | none, [] => eps
  | some a, [] => cat a eps
  | none, c :: rest => parse (some (atom c)) rest
  | some a, c :: rest =>
    if c = '*' then cat (star a) (parse none rest) else cat a (parse (some (atom c)) rest)

/-- The function `regexp.MustCompile` on the fragment. -/
def MustCompile (p : String) : Regexp := parse none p.data

/-- Whether the expression matches the empty text. -/
def nullable : Regexp → Bool
  | nothing => false
  | eps => true
  | lit _ => false
  | dot => false
  | cat r s => nullable r && nullable s
  | alt r s => nullable r || nullable s
  | star _ => true

/-- Brzozowski derivative with respect to one character. -/
def deriv : Regexp → Char → Regexp
  | nothing, _ => nothing
  | eps, _ => nothing
  | lit a, c => if c = a then eps else nothing
  | dot, c => if c = '\n' then nothing else eps
  | cat r s, c =>
    if nullable r then alt (cat (deriv r c) s) (deriv s c) else cat (deriv r c) s
  | alt r s, c => alt (deriv r c) (deriv s c)
  | star r, c => cat (deriv r c) (star r)

/-- Whether some prefix of the text matches the expression. -/
def matchPrefix (r : Regexp) : List Char → Bool
  | [] => nullable r
  | c :: cs => nullable r || matchPrefix (deriv r c) cs

/-- Whether some contiguous part of the text matches the expression. -/
def matchAnywhere (r : Regexp) : List Char → Bool
  | [] => nullable r
  | c :: cs => matchPrefix r (c :: cs) || matchAnywhere r cs

/-- The method `MatchString`: whether the text contains any match of the expression. -/
def MatchString (re : Regexp) (s : String) : Bool :=
  matchAnywhere re s.data

end Regexp

def reContainerIsNotRunning : Regexp := Regexp.MustCompile " Container .* is not running"
def reContainerIsInUse : Regexp := Regexp.MustCompile " Container .* is already in use"
def reContainerNotExist : Regexp := Regexp.MustCompile " No such container"

/-- The function `dockerError` (docker.go, lines 47-61). -/
def dockerError (out : String) (origErr : Option GoError) : Option GoError :=
  match origErr with
  | none => none
  | some origErr =>
    if reContainerIsNotRunning.MatchString out then
      some (.DockerError ErrNotRunning out)
    else if reContainerIsInUse.MatchString out then
      some (.DockerError ErrNameIsInUse out)
    else if reContainerNotExist.MatchString out then
      some (.DockerError ErrNotExist out)
    else
      some (.DockerError origErr out)


/-! ## Splitting the output of `run` -/

/-- Pieces of a text between the occurrences of a separator character. -/
def splitChars (sep : Char) : List Char → List (List Char)
  | [] => [[]]
  | c :: cs =>
    if c = sep then [] :: splitChars sep cs
    else
      match splitChars sep cs with
      | [] => [[c]]
      | p :: ps => (c :: p) :: ps

/-- The function `strings.Split(s, sep)` for a separator of one character, as in
`strings.Split(outStr, "\n")` (docker.go, line 122). -/
def stringsSplit (s : String) (sep : Char) : List String :=
  (splitChars sep s.data).map String.mk

/-! ## The container handle and the external process -/

/-- The struct `Container` (docker.go, lines 64-79). -/
structure Container where
  Docker : String := ""
  Image : String := ""
  Tag : String := ""
  Name : String := ""
  Exposes : List String := []
  Volumes : List String := []
  Links : List String := []
  Limits : List String := []
  Envs : List String := []
  containerID : String := ""
deriving DecidableEq, Repr

/-- One call `exec.Command(name, args...)`. -/
structure Invocation where
  name : String
  args : List String
deriving DecidableEq, Repr

/-- The external process behind `cmd.CombinedOutput()`: given the invocations made so
far and the current one, the combined output and the invocation error (`none` for `nil`). -/
abbrev Engine := List Invocation → Invocation → String × Option GoError

/-- Result of a method call: the returned error, the handle after the call and the
invocations made up to the end of the call. -/
structure Outcome where
  err : Option GoError
  c : Container
  log : List Invocation
deriving DecidableEq, Repr

/-- The argument list built by `Start` (docker.go, lines 98-116). -/
def Container.startOpts (c : Container) : List String :=
  let opts := ["run", "-d"]
  let opts := if c.Name.length > 0 then opts ++ ["--name", c.Name] else opts
  let opts := c.Exposes.foldl (fun opts expose => opts ++ ["-p", expose]) opts
  let opts := c.Volumes.foldl (fun opts vol => opts ++ ["-v", vol]) opts
  let opts := c.Links.foldl (fun opts link => opts ++ ["--link", link]) opts
  let opts := c.Limits.foldl (fun opts limit => opts ++ ["--ulimit", limit]) opts
  opts ++ [c.Image ++ ":" ++ c.Tag]

/-- The method `Container.Start` (docker.go, lines 82-133). -/
def Container.Start (eng : Engine) (c : Container) (log : List Invocation) : Outcome :=
  let c := if c.Docker.length = 0 then { c with Docker := "docker" } else c
  if c.Image.length = 0 then
    ⟨some (.errorf "image not set"), c, log⟩
  else
    let c := if c.Tag.length = 0 then { c with Tag := "latest" } else c
    if c.containerID.length > 0 then
      ⟨some ErrStarted, c, log⟩
    else
      let cmd : Invocation := ⟨c.Docker, c.startOpts⟩
      let reply := eng log cmd
      let log := log ++ [cmd]
      let outStr := reply.1
      match reply.2 with
      | none =>
        let s := stringsSplit outStr '\n'
        if s.length = 2 ∧ (s.getD 1 "").length = 0 then
          ⟨none, { c with containerID := s.getD 0 "" }, log⟩
        else
          ⟨dockerError outStr (some ErrParse), c, log⟩
      | some err => ⟨dockerError outStr (some err), c, log⟩

/-- The method `Container.Delete` (docker.go, lines 157-175). -/
def Container.Delete (eng : Engine) (c : Container) (log : List Invocation) : Outcome :=
  if c.containerID.length = 0 then
    ⟨some ErrIdNotSet, c, log⟩
  else
    let cmd : Invocation := ⟨c.Docker, ["rm", c.containerID]⟩
    let reply := eng log cmd
    let log := log ++ [cmd]
    match reply.2 with
    | none => ⟨none, { c with containerID := "" }, log⟩
    | some err => ⟨dockerError reply.1 (some err), c, log⟩

/-- The method `Container.Stop` (docker.go, lines 137-154). -/
def Container.Stop (eng : Engine) (c : Container) (delete : Bool) (log : List Invocation) :
    Outcome :=
  if c.containerID.length = 0 then
    ⟨some ErrIdNotSet, c, log⟩
  else
    let cmd : Invocation := ⟨c.Docker, ["stop", c.containerID]⟩
    let reply := eng log cmd
    let log := log ++ [cmd]
    if reply.2 = none ∧ delete = true then
      c.Delete eng log
    else
      ⟨dockerError reply.1 reply.2, c, log⟩

/-- The method `Container.Attach` (docker.go, lines 178-180). -/
def Container.Attach (c : Container) (id : String) : Container :=
  { c with containerID := id }

/-- The method `Container.Detach` (docker.go, lines 183-185). -/
def Container.Detach (c : Container) : Container :=
  { c with containerID := "" }

/-- The method `Container.Id` (docker.go, lines 188-190). -/
def Container.Id (c : Container) : String :=
  c.containerID

/-- The method `Container.IsRunning` (docker.go, lines 193-202). -/
def Container.IsRunning (eng : Engine) (c : Container) (log : List Invocation) : Outcome :=
  if c.containerID.length = 0 then
    ⟨some ErrIdNotSet, c, log⟩
  else
    let cmd : Invocation := ⟨c.Docker, ["top", c.containerID]⟩
    let reply := eng log cmd
    ⟨dockerError reply.1 reply.2, c, log ++ [cmd]⟩

/-- The method `Container.IsStopped` (docker.go, lines 205-221). -/
def Container.IsStopped (eng : Engine) (c : Container) (log : List Invocation) : Outcome :=
  if c.containerID.length = 0 then
    ⟨some ErrIdNotSet, c, log⟩
  else
    let cmd : Invocation := ⟨c.Docker, ["top", c.containerID]⟩
    let reply := eng log cmd
    let log := log ++ [cmd]
    match dockerError reply.1 reply.2 with
    | none => ⟨some (.DockerError ErrStarted ""), c, log⟩
    | some err =>
      if errorsIs err .ErrNotRunning then ⟨none, c, log⟩ else ⟨some err, c, log⟩

/-- The method `Container.IsExist` (docker.go, lines 224-240). -/
def Container.IsExist (eng : Engine) (c : Container) (log : List Invocation) : Outcome :=
  if c.containerID.length = 0 then
    ⟨some ErrIdNotSet, c, log⟩
  else
    let cmd : Invocation := ⟨c.Docker, ["top", c.containerID]⟩
    let reply := eng log cmd
    let log := log ++ [cmd]
    match dockerError reply.1 reply.2 with
    | none => ⟨none, c, log⟩
    | some err =>
      if errorsIs err .ErrNotRunning then ⟨none, c, log⟩ else ⟨some err, c, log⟩

/-- An engine that answers every invocation with the same reply. -/
def constEngine (out : String) (err : Option GoError) : Engine :=
  fun _ _ => (out, err)

/-- The handle with the defaults that `Start` writes (docker.go, lines 83-85 and 90-92). -/
def Container.defaulted (c : Container) : Container :=
  { c with
    Docker := if c.Docker.length = 0 then "docker" else c.Docker
    Tag := if c.Tag.length = 0 then "latest" else c.Tag }

/-- The invocation `Start` makes when it reaches `exec.Command` (docker.go, line 118). -/
def Container.startCmd (c : Container) : Invocation :=
  ⟨c.defaulted.Docker, c.defaulted.startOpts⟩

/-- The invocation `Stop` makes (docker.go, lines 142-144). -/
def Container.stopCmd (c : Container) : Invocation :=
  ⟨c.Docker, ["stop", c.containerID]⟩

/-- The invocation `Delete` makes (docker.go, lines 162-164). -/
def Container.rmCmd (c : Container) : Invocation :=
  ⟨c.Docker, ["rm", c.containerID]⟩

/-- The invocation `IsRunning`, `IsStopped` and `IsExist` make (docker.go, lines 198,
210, 229). -/
def Container.probeCmd (c : Container) : Invocation :=
  ⟨c.Docker, ["top", c.containerID]⟩

/-- The argument list of the `run` invocation as the specification writes it:
`run -d [--name NAME] [-p EXPOSE]* [-v VOLUME]* [--link LINK]* [--ulimit LIMIT]* IMAGE:TAG`,
the tag being `latest` when the handle has none. This follows the wording of the
specification, not the code. -/
def Container.startArgsRef (c : Container) : List String :=
  ["run", "-d"] ++
  (if c.Name = "" then [] else ["--name", c.Name]) ++
  c.Exposes.flatMap (fun e => ["-p", e]) ++
  c.Volumes.flatMap (fun v => ["-v", v]) ++
  c.Links.flatMap (fun l => ["--link", l]) ++
  c.Limits.flatMap (fun u => ["--ulimit", u]) ++
  [c.Image ++ ":" ++ (if c.Tag = "" then "latest" else c.Tag)]

/-! ## The order of the pattern checks -/

/-- The three message patterns of `dockerError`. -/
inductive Pattern where
  | notRunning
  | inUse
  | notExist
deriving DecidableEq, Repr

/-- The compiled expression of a pattern (docker.go, lines 42-44). -/
def Pattern.re : Pattern → Regexp
  | .notRunning => reContainerIsNotRunning
  | .inUse => reContainerIsInUse
  | .notExist => reContainerNotExist

/-- The error kind `dockerError` returns for a pattern (docker.go, lines 52, 55, 58). -/
def Pattern.err : Pattern → GoError
  | .notRunning => ErrNotRunning
  | .inUse => ErrNameIsInUse
  | .notExist => ErrNotExist

/-- Classification of the output of a failed invocation when the patterns are checked
in the given order, the first match winning. -/
def classifyIn (order : List Pattern) (out : String) (origErr : GoError) : GoError :=
  match order with
  | [] => .DockerError origErr out
  | p :: ps =>
    if p.re.MatchString out then .DockerError p.err out else classifyIn ps out origErr

/-- The order in which `dockerError` checks the patterns (docker.go, lines 51-59). -/
def codeOrder : List Pattern := [.notRunning, .inUse, .notExist]

/-! ## Reference semantics of regular expressions -/

/-- The texts an expression matches in full (the language of the expression). -/
inductive Regexp.Matches : Regexp → List Char → Prop
  | eps : Matches .eps []
  | lit (c : Char) : Matches (.lit c) [c]
  | dot (c : Char) : c ≠ '\n' → Matches .dot [c]
  | cat {r s : Regexp} {u v : List Char} :
    Matches r u → Matches s v → Matches (.cat r s) (u ++ v)
  | altL {r s : Regexp} {u : List Char} : Matches r u → Matches (.alt r s) u
  | altR {r s : Regexp} {u : List Char} : Matches s u → Matches (.alt r s) u
  | starNil {r : Regexp} : Matches (.star r) []
  | starCons {r : Regexp} {u v : List Char} :
    Matches r u → Matches (.star r) v → Matches (.star r) (u ++ v)

/-- The expression for a literal text followed by a continuation. -/
def Regexp.litSeq (l : List Char) (k : Regexp) : Regexp :=
  l.foldr (fun c r => .cat (.lit c) r) k

/-! ## Reference definition of the classifier, following the specification -/

/-- The text `out` matches the pattern `a .* b` somewhere: it contains `a`, then a run
of characters none of which is a newline, then `b`. This follows the wording of the
specification, not the code. -/
def MatchesWithGap (a b out : String) : Prop :=
  ∃ pre mid post : String, out = pre ++ a ++ mid ++ b ++ post ∧ '\n' ∉ mid.data

/-- The text `out` contains the text `a`. This follows the wording of the
specification, not the code. -/
def ContainsText (a out : String) : Prop :=
  ∃ pre post : String, out = pre ++ a ++ post

/-- The message of the engine saying that the container is not running. -/
def NotRunningMessage (out : String) : Prop :=
  MatchesWithGap " Container " " is not running" out

/-- The message of the engine saying that the name is already in use. -/
def NameInUseMessage (out : String) : Prop :=
  MatchesWithGap " Container " " is already in use" out

/-- The message of the engine saying that there is no such container. -/
def NotExistMessage (out : String) : Prop :=
  ContainsText " No such container" out

/-- Reference definition of the output classifier, following the specification:
`res` is the classification of the output `out` of an invocation that returned `e`. -/
def dockerErrorRef (out : String) (e : Option GoError) (res : Option GoError) : Prop :=
  match e with
  | none => res = none
  | some e =>
    (NotRunningMessage out ∧ res = some (.DockerError ErrNotRunning out)) ∨
    (¬ NotRunningMessage out ∧ NameInUseMessage out ∧
      res = some (.DockerError ErrNameIsInUse out)) ∨
    (¬ NotRunningMessage out ∧ ¬ NameInUseMessage out ∧ NotExistMessage out ∧
      res = some (.DockerError ErrNotExist out)) ∨
    (¬ NotRunningMessage out ∧ ¬ NameInUseMessage out ∧ ¬ NotExistMessage out ∧
      res = some (.DockerError e out))

namespace Regexp

theorem matches_eps_iff {s : List Char} : Matches eps s ↔ s = [] := by
  constructor
  · intro h
    cases h
    rfl
  · rintro rfl
    exact Matches.eps

theorem nullable_iff (r : Regexp) : nullable r = true ↔ Matches r [] := by
  induction r with
  | nothing => simp only [nullable]; constructor
               · intro h; cases h
               · intro h; cases h
  | eps => simp only [nullable]; exact ⟨fun _ => Matches.eps, fun _ => trivial⟩
  | lit c => simp only [nullable]; constructor
             · intro h; cases h
             · intro h; cases h
  | dot => simp only [nullable]; constructor
           · intro h; cases h
           · intro h; cases h
  | cat r s ihr ihs =>
    simp only [nullable, Bool.and_eq_true, ihr, ihs]
    constructor
    · rintro ⟨h1, h2⟩
      exact Matches.cat h1 h2
    · intro h
      generalize hw : ([] : List Char) = w at h
      cases h with
      | cat h1 h2 =>
        rename_i u v
        have hu : u = [] := by
          cases u with
          | nil => rfl
          | cons a t => simp at hw
        have hv : v = [] := by
          subst hu
          simpa using hw.symm
        subst hu; subst hv
        exact ⟨h1, h2⟩
  | alt r s ihr ihs =>
    simp only [nullable, Bool.or_eq_true, ihr, ihs]
    constructor
    · rintro (h | h)
      · exact Matches.altL h
      · exact Matches.altR h
    · intro h
      cases h with
      | altL h => exact Or.inl h
      | altR h => exact Or.inr h
  | star r _ =>
    simp only [nullable]
    exact ⟨fun _ => Matches.starNil, fun _ => trivial⟩

theorem matches_of_deriv (r : Regexp) (c : Char) :
    ∀ s : List Char, Matches (deriv r c) s → Matches r (c :: s) := by
  induction r with
  | nothing => intro s h; simp only [deriv] at h; cases h
  | eps => intro s h; simp only [deriv] at h; cases h
  | lit a =>
    intro s h
    simp only [deriv] at h
    split at h
    · rename_i hca
      cases h
      subst hca
      exact Matches.lit c
    · cases h
  | dot =>
    intro s h
    simp only [deriv] at h
    split at h
    · cases h
    · rename_i hc
      cases h
      exact Matches.dot c hc
  | cat r s ihr ihs =>
    intro w h
    simp only [deriv] at h
    split at h
    · rename_i hn
      cases h with
      | altL h =>
        cases h with
        | cat h1 h2 =>
          have := Matches.cat (ihr _ h1) h2
          simpa using this
      | altR h =>
        have := Matches.cat ((nullable_iff r).1 hn) (ihs _ h)
        simpa using this
    · cases h with
      | cat h1 h2 =>
        have := Matches.cat (ihr _ h1) h2
        simpa using this
  | alt r s ihr ihs =>
    intro w h
    simp only [deriv] at h
    cases h with
    | altL h => exact Matches.altL (ihr _ h)
    | altR h => exact Matches.altR (ihs _ h)
  | star r ihr =>
    intro w h
    simp only [deriv] at h
    cases h with
    | cat h1 h2 =>
      have := Matches.starCons (ihr _ h1) h2
      simpa using this

theorem matches_deriv_of {r : Regexp} {w : List Char} (h : Matches r w) :
    ∀ (c : Char) (s : List Char), w = c :: s → Matches (deriv r c) s := by
  induction h with
  | eps => intro c s hw; cases hw
  | lit a =>
    intro c s hw
    injection hw with h1 h2
    subst h1; subst h2
    simp only [deriv, if_true]
    exact Matches.eps
  | dot a ha =>
    intro c s hw
    injection hw with h1 h2
    subst h1; subst h2
    simp only [deriv, if_neg ha]
    exact Matches.eps
  | cat h1 h2 ih1 ih2 =>
    rename_i r s u v
    intro c w hw
    simp only [deriv]
    cases u with
    | nil =>
      have hn : nullable r = true := (nullable_iff r).2 h1
      simp only [hn, if_true]
      exact Matches.altR (ih2 c w (by simpa using hw))
    | cons a t =>
      simp only [List.cons_append, List.cons.injEq] at hw
      obtain ⟨rfl, rfl⟩ := hw
      split
      · exact Matches.altL (Matches.cat (ih1 a t rfl) h2)
      · exact Matches.cat (ih1 a t rfl) h2
  | altL h ih =>
    intro c s hw
    simp only [deriv]
    exact Matches.altL (ih c s hw)
  | altR h ih =>
    intro c s hw
    simp only [deriv]
    exact Matches.altR (ih c s hw)
  | starNil => intro c s hw; cases hw
  | starCons h1 h2 ih1 ih2 =>
    rename_i r u v
    intro c w hw
    cases u with
    | nil => exact ih2 c w (by simpa using hw)
    | cons a t =>
      simp only [List.cons_append, List.cons.injEq] at hw
      obtain ⟨rfl, rfl⟩ := hw
      simp only [deriv]
      exact Matches.cat (ih1 a t rfl) h2

theorem deriv_iff (r : Regexp) (c : Char) (s : List Char) :
    Matches (deriv r c) s ↔ Matches r (c :: s) :=
  ⟨matches_of_deriv r c s, fun h => matches_deriv_of h c s rfl⟩

theorem matchPrefix_iff (s : List Char) :
    ∀ r : Regexp, matchPrefix r s = true ↔ ∃ p q, s = p ++ q ∧ Matches r p := by
  induction s with
  | nil =>
    intro r
    simp only [matchPrefix, nullable_iff]
    constructor
    · intro h
      exact ⟨[], [], rfl, h⟩
    · rintro ⟨p, q, hpq, h⟩
      have hp : p = [] := by
        cases p with
        | nil => rfl
        | cons a t => simp at hpq
      subst hp
      exact h
  | cons c cs ih =>
    intro r
    simp only [matchPrefix, Bool.or_eq_true, nullable_iff, ih]
    constructor
    · rintro (h | ⟨p, q, hpq, h⟩)
      · exact ⟨[], c :: cs, rfl, h⟩
      · exact ⟨c :: p, q, by simp [hpq], (deriv_iff r c p).1 h⟩
    · rintro ⟨p, q, hpq, h⟩
      cases p with
      | nil => exact Or.inl h
      | cons a t =>
        simp only [List.cons_append, List.cons.injEq] at hpq
        obtain ⟨rfl, rfl⟩ := hpq
        exact Or.inr ⟨t, q, rfl, (deriv_iff r c t).2 h⟩

theorem matchAnywhere_iff (r : Regexp) (s : List Char) :
    matchAnywhere r s = true ↔ ∃ a p q, s = a ++ p ++ q ∧ Matches r p := by
  induction s with
  | nil =>
    simp only [matchAnywhere, nullable_iff]
    constructor
    · intro h
      exact ⟨[], [], [], rfl, h⟩
    · rintro ⟨a, p, q, hpq, h⟩
      have hp : p = [] := by
        cases p with
        | nil => rfl
        | cons x t => simp at hpq
      subst hp
      exact h
  | cons c cs ih =>
    simp only [matchAnywhere, Bool.or_eq_true, matchPrefix_iff, ih]
    constructor
    · rintro (⟨p, q, hpq, h⟩ | ⟨a, p, q, hpq, h⟩)
      · exact ⟨[], p, q, by simpa using hpq, h⟩
      · exact ⟨c :: a, p, q, by simp [hpq], h⟩
    · rintro ⟨a, p, q, hpq, h⟩
      cases a with
      | nil => exact Or.inl ⟨p, q, by simpa using hpq, h⟩
      | cons x t =>
        simp only [List.cons_append, List.cons.injEq] at hpq
        obtain ⟨rfl, rfl⟩ := hpq
        exact Or.inr ⟨t, p, q, by simp, h⟩

theorem matches_cat_iff (r k : Regexp) (s : List Char) :
    Matches (cat r k) s ↔ ∃ u v, s = u ++ v ∧ Matches r u ∧ Matches k v := by
  constructor
  · intro h
    cases h with
    | cat h1 h2 => exact ⟨_, _, rfl, h1, h2⟩
  · rintro ⟨u, v, rfl, h1, h2⟩
    exact Matches.cat h1 h2

theorem matches_lit_iff (c : Char) (s : List Char) : Matches (lit c) s ↔ s = [c] := by
  constructor
  · intro h
    cases h
    rfl
  · rintro rfl
    exact Matches.lit c

theorem matches_litSeq_iff (l : List Char) (k : Regexp) :
    ∀ s : List Char, Matches (litSeq l k) s ↔ ∃ t, s = l ++ t ∧ Matches k t := by
  induction l with
  | nil =>
    intro s
    simp [litSeq]
  | cons c l ih =>
    intro s
    have hunf : litSeq (c :: l) k = cat (lit c) (litSeq l k) := rfl
    rw [hunf, matches_cat_iff]
    constructor
    · rintro ⟨u, v, rfl, hu, hv⟩
      obtain ⟨t, rfl, ht⟩ := (ih v).1 hv
      rw [(matches_lit_iff c u).1 hu]
      exact ⟨t, by simp, ht⟩
    · rintro ⟨t, rfl, ht⟩
      exact ⟨[c], l ++ t, by simp, Matches.lit c, (ih _).2 ⟨t, rfl, ht⟩⟩

theorem matches_star_dot_of {w : List Char} {r : Regexp} (h : Matches r w) :
    r = star dot → ∀ c ∈ w, c ≠ '\n' := by
  induction h with
  | eps => intro hr; cases hr
  | lit a => intro hr; cases hr
  | dot a ha => intro hr; cases hr
  | cat h1 h2 ih1 ih2 => intro hr; cases hr
  | altL h ih => intro hr; cases hr
  | altR h ih => intro hr; cases hr
  | starNil => intro _ c hc; cases hc
  | starCons h1 h2 ih1 ih2 =>
    intro hr c hc
    injection hr with hr
    subst hr
    rcases List.mem_append.1 hc with hc | hc
    · cases h1 with
      | dot a ha =>
        rw [List.mem_singleton] at hc
        subst hc
        exact ha
    · exact ih2 rfl c hc

theorem matches_star_dot_iff (w : List Char) :
    Matches (star dot) w ↔ ∀ c ∈ w, c ≠ '\n' := by
  constructor
  · intro h
    exact matches_star_dot_of h rfl
  · intro h
    induction w with
    | nil => exact Matches.starNil
    | cons a t ih =>
      have h1 : Matches dot [a] := Matches.dot a (h a (List.mem_cons_self a t))
      have h2 : Matches (star dot) t := ih (fun c hc => h c (List.mem_cons_of_mem a hc))
      exact Matches.starCons h1 h2

/-- The language of a pattern `a.*b`. -/
theorem matches_gap_iff (a b : List Char) (s : List Char) :
    Matches (litSeq a (cat (star dot) (litSeq b eps))) s ↔
      ∃ mid, s = a ++ mid ++ b ∧ '\n' ∉ mid := by
  rw [matches_litSeq_iff]
  constructor
  · rintro ⟨t, rfl, ht⟩
    obtain ⟨u, v, rfl, hu, hv⟩ := (matches_cat_iff _ _ _).1 ht
    obtain ⟨t2, rfl, ht2⟩ := (matches_litSeq_iff b eps v).1 hv
    rw [matches_eps_iff] at ht2
    subst ht2
    refine ⟨u, by simp, ?_⟩
    intro hmem
    exact (matches_star_dot_iff u).1 hu _ hmem rfl
  · rintro ⟨mid, rfl, hmid⟩
    refine ⟨mid ++ b, by simp, ?_⟩
    refine (matches_cat_iff _ _ _).2 ⟨mid, b, rfl, ?_, ?_⟩
    · refine (matches_star_dot_iff mid).2 ?_
      intro c hc hcn
      exact hmid (hcn ▸ hc)
    · exact (matches_litSeq_iff b eps b).2 ⟨[], by simp, Matches.eps⟩

/-- The language of a literal pattern. -/
theorem matches_literal_iff (a : List Char) (s : List Char) :
    Matches (litSeq a eps) s ↔ s = a := by
  rw [matches_litSeq_iff]
  constructor
  · rintro ⟨t, rfl, ht⟩
    rw [matches_eps_iff] at ht
    subst ht
    simp
  · rintro rfl
    exact ⟨[], by simp, Matches.eps⟩

end Regexp

theorem reContainerIsNotRunning_eq :
    reContainerIsNotRunning =
      Regexp.litSeq " Container ".data
        (.cat (.star .dot) (Regexp.litSeq " is not running".data .eps)) := by
  rfl

theorem reContainerIsInUse_eq :
    reContainerIsInUse =
      Regexp.litSeq " Container ".data
        (.cat (.star .dot) (Regexp.litSeq " is already in use".data .eps)) := by
  rfl

theorem reContainerNotExist_eq :
    reContainerNotExist = Regexp.litSeq " No such container".data .eps := by
  rfl

theorem matchString_gap_iff (a b out : String) :
    Regexp.MatchString
        (Regexp.litSeq a.data (.cat (.star .dot) (Regexp.litSeq b.data .eps))) out = true ↔
      MatchesWithGap a b out := by
  unfold Regexp.MatchString MatchesWithGap
  rw [Regexp.matchAnywhere_iff]
  constructor
  · rintro ⟨pre, p, post, hout, hp⟩
    obtain ⟨mid, rfl, hmid⟩ := (Regexp.matches_gap_iff _ _ _).1 hp
    refine ⟨⟨pre⟩, ⟨mid⟩, ⟨post⟩, ?_, hmid⟩
    apply String.ext
    simp [hout]
  · rintro ⟨pre, mid, post, hout, hmid⟩
    refine ⟨pre.data, a.data ++ mid.data ++ b.data, post.data, ?_, ?_⟩
    · rw [hout]
      simp
    · exact (Regexp.matches_gap_iff _ _ _).2 ⟨mid.data, rfl, hmid⟩

theorem matchString_literal_iff (a out : String) :
    Regexp.MatchString (Regexp.litSeq a.data .eps) out = true ↔ ContainsText a out := by
  unfold Regexp.MatchString ContainsText
  rw [Regexp.matchAnywhere_iff]
  constructor
  · rintro ⟨pre, p, post, hout, hp⟩
    rw [Regexp.matches_literal_iff] at hp
    subst hp
    refine ⟨⟨pre⟩, ⟨post⟩, ?_⟩
    apply String.ext
    simp [hout]
  · rintro ⟨pre, post, hout⟩
    refine ⟨pre.data, a.data, post.data, ?_, ?_⟩
    · rw [hout]
      simp
    · exact (Regexp.matches_literal_iff _ _).2 rfl

theorem matchString_notRunning_iff (out : String) :
    reContainerIsNotRunning.MatchString out = true ↔ NotRunningMessage out := by
  rw [reContainerIsNotRunning_eq]
  exact matchString_gap_iff _ _ out

theorem matchString_inUse_iff (out : String) :
    reContainerIsInUse.MatchString out = true ↔ NameInUseMessage out := by
  rw [reContainerIsInUse_eq]
  exact matchString_gap_iff _ _ out

theorem matchString_notExist_iff (out : String) :
    reContainerNotExist.MatchString out = true ↔ NotExistMessage out := by
  rw [reContainerNotExist_eq]
  exact matchString_literal_iff _ out

/-- The fallback of the classifier: an output with none of the three messages keeps the
original error. -/
theorem dockerError_of_no_message (out : String) (e : GoError)
    (h1 : ¬ NotRunningMessage out) (h2 : ¬ NameInUseMessage out)
    (h3 : ¬ NotExistMessage out) :
    dockerError out (some e) = some (.DockerError e out) := by
  rw [← matchString_notRunning_iff] at h1
  rw [← matchString_inUse_iff] at h2
  rw [← matchString_notExist_iff] at h3
  simp only [dockerError, if_neg h1, if_neg h2, if_neg h3]

/-- C1: `dockerError` agrees with the reference definition of the classifier: for every
output text and every invocation error, a value is the result of `dockerError` exactly
when the reference definition allows it (nil for a nil error; otherwise a `DockerError`
carrying the output whose kind is NotRunning, else NameInUse, else NotExist according
to the first message found in the output, else the original error). -/
theorem dockerError_eq_reference (out : String) (e res : Option GoError) :
    dockerError out e = res ↔ dockerErrorRef out e res := by
  cases e with
  | none =>
    simp only [dockerError, dockerErrorRef]
    exact eq_comm
  | some e =>
    simp only [dockerError, dockerErrorRef, ← matchString_notRunning_iff,
      ← matchString_inUse_iff, ← matchString_notExist_iff]
    by_cases h1 : reContainerIsNotRunning.MatchString out = true
    · rw [if_pos h1]
      constructor
      · intro h
        exact Or.inl ⟨h1, h.symm⟩
      · rintro (⟨_, h⟩ | ⟨hn, _⟩ | ⟨hn, _⟩ | ⟨hn, _⟩)
        · exact h.symm
        · exact absurd h1 hn
        · exact absurd h1 hn
        · exact absurd h1 hn
    · rw [if_neg h1]
      by_cases h2 : reContainerIsInUse.MatchString out = true
      · rw [if_pos h2]
        constructor
        · intro h
          exact Or.inr (Or.inl ⟨h1, h2, h.symm⟩)
        · rintro (⟨hp, _⟩ | ⟨_, _, h⟩ | ⟨_, hn, _⟩ | ⟨_, hn, _⟩)
          · exact absurd hp h1
          · exact h.symm
          · exact absurd h2 hn
          · exact absurd h2 hn
      · rw [if_neg h2]
        by_cases h3 : reContainerNotExist.MatchString out = true
        · rw [if_pos h3]
          constructor
          · intro h
            exact Or.inr (Or.inr (Or.inl ⟨h1, h2, h3, h.symm⟩))
          · rintro (⟨hp, _⟩ | ⟨_, hp, _⟩ | ⟨_, _, _, h⟩ | ⟨_, _, hn, _⟩)
            · exact absurd hp h1
            · exact absurd hp h2
            · exact h.symm
            · exact absurd h3 hn
        · rw [if_neg h3]
          constructor
          · intro h
            exact Or.inr (Or.inr (Or.inr ⟨h1, h2, h3, h.symm⟩))
          · rintro (⟨hp, _⟩ | ⟨_, hp, _⟩ | ⟨_, _, hp, _⟩ | ⟨_, _, _, h⟩)
            · exact absurd hp h1
            · exact absurd hp h2
            · exact absurd hp h3
            · exact h.symm

/-! ## Order of the checks -/

theorem dockerError_eq_classifyIn (out : String) (e : GoError) :
    dockerError out (some e) = some (classifyIn codeOrder out e) := by
  simp only [dockerError, classifyIn, codeOrder, Pattern.re, Pattern.err]
  split
  · rfl
  · split
    · rfl
    · split
      · rfl
      · rfl

theorem classifyIn_of_none (out : String) (e : GoError) :
    ∀ order : List Pattern, (∀ p ∈ order, p.re.MatchString out = false) →
      classifyIn order out e = .DockerError e out := by
  intro order
  induction order with
  | nil => intro _; rfl
  | cons p ps ih =>
    intro h
    have hp : p.re.MatchString out = false := h p (List.mem_cons_self p ps)
    simp only [classifyIn, hp, Bool.false_eq_true, if_false]
    exact ih (fun q hq => h q (List.mem_cons_of_mem p hq))

theorem classifyIn_of_unique (out : String) (e : GoError) (p : Pattern)
    (hp : p.re.MatchString out = true) :
    ∀ order : List Pattern, p ∈ order →
      (∀ q ∈ order, q.re.MatchString out = true → q = p) →
      classifyIn order out e = .DockerError p.err out := by
  intro order
  induction order with
  | nil => intro hmem; cases hmem
  | cons a ps ih =>
    intro hmem huniq
    by_cases ha : a.re.MatchString out = true
    · have hap : a = p := huniq a (List.mem_cons_self a ps) ha
      subst hap
      simp only [classifyIn, ha, if_true]
    · have hne : p ≠ a := by
        intro hpa
        subst hpa
        exact ha hp
      have hmem2 : p ∈ ps := by
        rcases List.mem_cons.1 hmem with h | h
        · exact absurd h hne
        · exact h
      simp only [classifyIn, ha, if_false]
      exact ih hmem2 (fun q hq => huniq q (List.mem_cons_of_mem a hq))

/-- C2 (as stated, refuted): the output
`" Container a is not running\n Container b is already in use"` matches both the
not-running and the in-use pattern, and its classification depends on the order of the
checks: `dockerError` answers NotRunning, the order checking in-use first answers
NameInUse. -/
theorem patterns_not_exclusive :
    reContainerIsNotRunning.MatchString
        " Container a is not running\n Container b is already in use" = true ∧
    reContainerIsInUse.MatchString
        " Container a is not running\n Container b is already in use" = true ∧
    dockerError " Container a is not running\n Container b is already in use"
        (some (.invocation "exit status 1")) =
      some (.DockerError ErrNotRunning
        " Container a is not running\n Container b is already in use") ∧
    classifyIn [.inUse, .notRunning, .notExist]
        " Container a is not running\n Container b is already in use"
        (.invocation "exit status 1") =
      .DockerError ErrNameIsInUse
        " Container a is not running\n Container b is already in use" := by
  refine ⟨?_, ?_, ?_, ?_⟩ <;> decide

/-- C2 (amended): for every output text that matches at most one of the three patterns
and every failed invocation, checking the patterns in any order gives the
classification `dockerError` gives. -/
theorem classification_order_irrelevant (out : String) (e : GoError) (order : List Pattern)
    (hperm : order.Perm codeOrder)
    (hone : ∀ p q : Pattern,
      p.re.MatchString out = true → q.re.MatchString out = true → p = q) :
    some (classifyIn order out e) = dockerError out (some e) := by
  rw [dockerError_eq_classifyIn]
  by_cases hex : ∃ p : Pattern, p.re.MatchString out = true
  · obtain ⟨p, hp⟩ := hex
    have hcode : p ∈ codeOrder := by
      cases p <;> simp [codeOrder]
    have hord : p ∈ order := hperm.mem_iff.2 hcode
    rw [classifyIn_of_unique out e p hp order hord (fun q _ hq => hone q p hq hp),
      classifyIn_of_unique out e p hp codeOrder hcode (fun q _ hq => hone q p hq hp)]
  · have hnone : ∀ p : Pattern, p.re.MatchString out = false := by
      intro p
      cases hm : p.re.MatchString out with
      | false => rfl
      | true => exact absurd ⟨p, hm⟩ hex
    rw [classifyIn_of_none out e order (fun p _ => hnone p),
      classifyIn_of_none out e codeOrder (fun p _ => hnone p)]

theorem classification_order_irrelevant_witness :
    [Pattern.notExist, .inUse, .notRunning].Perm codeOrder ∧
    (∀ p q : Pattern,
      p.re.MatchString "Error: No such container: abc" = true →
      q.re.MatchString "Error: No such container: abc" = true → p = q) ∧
    some (classifyIn [.notExist, .inUse, .notRunning] "Error: No such container: abc"
      (.invocation "exit status 1")) =
      dockerError "Error: No such container: abc" (some (.invocation "exit status 1")) :=
  have hperm : [Pattern.notExist, .inUse, .notRunning].Perm codeOrder := by decide
  have hone : ∀ p q : Pattern,
      p.re.MatchString "Error: No such container: abc" = true →
      q.re.MatchString "Error: No such container: abc" = true → p = q := by
    intro p q
    cases p <;> cases q <;> decide
  ⟨hperm, hone, classification_order_irrelevant _ _ _ hperm hone⟩

/-! ## Lifecycle operations -/

theorem length_eq_zero_iff (s : String) : s.length = 0 ↔ s = "" := by
  constructor
  · intro h
    apply String.ext
    exact List.length_eq_zero.1 h
  · rintro rfl
    rfl

theorem length_pos_iff (s : String) : s.length > 0 ↔ s ≠ "" := by
  rw [gt_iff_lt, Nat.pos_iff_ne_zero, Ne, length_eq_zero_iff]

/-- What `Start` does once both precondition checks have passed. -/
theorem Start_of_ready (eng : Engine) (log : List Invocation) (c : Container)
    (hImg : c.Image ≠ "") (hId : c.containerID = "") :
    c.Start eng log =
      match (eng log c.startCmd).2 with
      | none =>
        if (stringsSplit (eng log c.startCmd).1 '\n').length = 2 ∧
            ((stringsSplit (eng log c.startCmd).1 '\n').getD 1 "").length = 0 then
          ⟨none,
            { c.defaulted with
              containerID := (stringsSplit (eng log c.startCmd).1 '\n').getD 0 "" },
            log ++ [c.startCmd]⟩
        else
          ⟨dockerError (eng log c.startCmd).1 (some ErrParse), c.defaulted,
            log ++ [c.startCmd]⟩
      | some err =>
        ⟨dockerError (eng log c.startCmd).1 (some err), c.defaulted, log ++ [c.startCmd]⟩ := by
  have hImg2 : ¬ c.Image.length = 0 := fun h => hImg ((length_eq_zero_iff _).1 h)
  have hId2 : ¬ c.containerID.length > 0 := by
    rw [hId]
    decide
  unfold Container.Start Container.startCmd Container.defaulted
  by_cases hD : c.Docker.length = 0 <;> by_cases hT : c.Tag.length = 0 <;>
    simp only [hD, hT, hImg2, hId2, if_true, if_false]

theorem two_parts_iff (s : List String) :
    (s.length = 2 ∧ (s.getD 1 "").length = 0) ↔ ∃ id, s = [id, ""] := by
  constructor
  · rintro ⟨hlen, hsnd⟩
    match s, hlen with
    | [a, b], _ =>
      have hb : b = "" := (length_eq_zero_iff b).1 hsnd
      exact ⟨a, by rw [hb]⟩
  · rintro ⟨id, rfl⟩
    exact ⟨rfl, rfl⟩

/-- C3 (as stated, refuted): the engine reports success with the output
`" No such container"`, which does not split into two parts; `Start` returns an error
of kind NotExist, which does not test as ParseFailure. -/
theorem Start_malformed_not_ParseFailure :
    (∀ id, stringsSplit " No such container" '\n' ≠ [id, ""]) ∧
    (Container.Start (constEngine " No such container" none) { Image := "redis" } []).err =
      some (.DockerError ErrNotExist " No such container") ∧
    errorsIs (.DockerError ErrNotExist " No such container") .ErrParse = false := by
  refine ⟨?_, ?_, ?_⟩
  · intro id h
    have hlen : (stringsSplit " No such container" '\n').length = 2 := by
      rw [h]
      rfl
    exact absurd hlen (by decide)
  · decide
  · decide

/-- C3 (amended): for a handle with a non-empty image and an empty runtimeID whose `run`
invocation (the one `Start` logs) succeeds with output `out`: if `out` splits on newline into exactly two parts
with the second empty, `Start` returns nil and runtimeID becomes the first part;
otherwise `Start` returns `dockerError out ErrParse`, an error carrying `out` whose kind
is ParseFailure when `out` contains none of the three classifier messages, and runtimeID
stays empty. -/
theorem Start_output_shape (eng : Engine) (log : List Invocation) (c : Container)
    (out : String) (hImg : c.Image ≠ "") (hId : c.containerID = "")
    (hrep : eng log c.startCmd = (out, none)) :
    (c.Start eng log).log = log ++ [c.startCmd] ∧
    (∀ id, stringsSplit out '\n' = [id, ""] →
      (c.Start eng log).err = none ∧ (c.Start eng log).c.containerID = id) ∧
    ((∀ id, stringsSplit out '\n' ≠ [id, ""]) →
      (c.Start eng log).err = dockerError out (some ErrParse) ∧
      (c.Start eng log).c.containerID = "" ∧
      (∃ k, (c.Start eng log).err = some (.DockerError k out)) ∧
      (¬ NotRunningMessage out → ¬ NameInUseMessage out → ¬ NotExistMessage out →
        (c.Start eng log).err = some (.DockerError ErrParse out))) := by
  rw [Start_of_ready eng log c hImg hId, hrep]
  simp only
  refine ⟨?_, ?_, ?_⟩
  · split <;> rfl
  · intro id hsplit
    rw [if_pos ((two_parts_iff _).2 ⟨id, hsplit⟩), hsplit]
    exact ⟨rfl, rfl⟩
  · intro hbad
    have hcond : ¬ ((stringsSplit out '\n').length = 2 ∧
        ((stringsSplit out '\n').getD 1 "").length = 0) := by
      intro h
      obtain ⟨id, hid⟩ := (two_parts_iff _).1 h
      exact hbad id hid
    rw [if_neg hcond]
    refine ⟨rfl, ?_, ?_, ?_⟩
    · simpa [Container.defaulted] using hId
    · show ∃ k, dockerError out (some ErrParse) = some (.DockerError k out)
      simp only [dockerError]
      split
      · exact ⟨_, rfl⟩
      · split
        · exact ⟨_, rfl⟩
        · split
          · exact ⟨_, rfl⟩
          · exact ⟨_, rfl⟩
    · intro h1 h2 h3
      exact dockerError_of_no_message out ErrParse h1 h2 h3

theorem Start_output_shape_witness :
    (Container.Start (constEngine "0123abc\n" none) { Image := "redis" } []).err = none ∧
    (Container.Start (constEngine "0123abc\n" none) { Image := "redis" } []).c.containerID =
      "0123abc" :=
  (Start_output_shape (constEngine "0123abc\n" none) [] { Image := "redis" } "0123abc\n"
    (by decide) rfl rfl).2.1 "0123abc" (by decide)

/-- C4 (evaluation at the failing input): the engine reports success with the output
`"\n"`; `Start` returns nil and `Id()` is the empty text afterwards. -/
theorem Start_success_with_empty_id :
    (Container.Start (constEngine "\n" none) { Image := "redis", Tag := "6.2" } []).err =
      none ∧
    (Container.Start (constEngine "\n" none) { Image := "redis", Tag := "6.2" } []).c.Id =
      "" := by
  constructor <;> decide

/-- C5 (evaluation at the failing input): on a handle with an empty image `Start` makes no
invocation and returns the fresh value of `fmt.Errorf("image not set")`, which has the
text of `ErrImageNotSet` but does not test as `ErrImageNotSet`. -/
theorem Start_empty_image_not_ErrImageNotSet :
    (Container.Start (constEngine "" none) {} []).err = some (.errorf "image not set") ∧
    (Container.Start (constEngine "" none) {} []).log = [] ∧
    errorsIs (.errorf "image not set") .ErrImageNotSet = false ∧
    (GoError.errorf "image not set").Error = ErrImageNotSet.Error := by
  refine ⟨?_, ?_, ?_, ?_⟩ <;> decide

/-- C6 (as stated, refuted): a handle with a non-empty runtimeID and an empty image: `Start`
fails with the image-not-set error, which does not test as AlreadyStarted. -/
theorem Start_attached_empty_image :
    (({} : Container).Attach "abc").containerID ≠ "" ∧
    (Container.Start (constEngine "" none) (({} : Container).Attach "abc") []).err =
      some (.errorf "image not set") ∧
    errorsIs (.errorf "image not set") .ErrStarted = false := by
  refine ⟨?_, ?_, ?_⟩ <;> decide

/-- C6 (amended): for every handle whose runtimeID and image are both non-empty, `Start`
fails with AlreadyStarted (the value `ErrStarted`), makes no invocation and leaves
runtimeID unchanged. -/
theorem Start_already_started (eng : Engine) (log : List Invocation) (c : Container)
    (hId : c.containerID ≠ "") (hImg : c.Image ≠ "") :
    (c.Start eng log).err = some ErrStarted ∧
    (c.Start eng log).log = log ∧
    (c.Start eng log).c.containerID = c.containerID := by
  have hImg2 : ¬ c.Image.length = 0 := fun h => hImg ((length_eq_zero_iff _).1 h)
  have hId2 : c.containerID.length > 0 := (length_pos_iff _).2 hId
  unfold Container.Start
  by_cases hD : c.Docker.length = 0 <;> by_cases hT : c.Tag.length = 0 <;>
    simp [hD, hT, hImg2, hId2]

theorem Start_already_started_witness :
    (Container.Start (constEngine "" none)
      { Image := "redis", containerID := "abc" } []).err = some ErrStarted ∧
    (Container.Start (constEngine "" none)
      { Image := "redis", containerID := "abc" } []).log = [] ∧
    (Container.Start (constEngine "" none)
      { Image := "redis", containerID := "abc" } []).c.containerID = "abc" :=
  Start_already_started (constEngine "" none) [] { Image := "redis", containerID := "abc" }
    (by decide) (by decide)

/-- What `IsStopped` does on a handle with an identity. -/
theorem IsStopped_of_id (eng : Engine) (log : List Invocation) (c : Container)
    (hId : c.containerID ≠ "") :
    c.IsStopped eng log =
      match dockerError (eng log c.probeCmd).1 (eng log c.probeCmd).2 with
      | none => ⟨some (.DockerError ErrStarted ""), c, log ++ [c.probeCmd]⟩
      | some err =>
        if errorsIs err .ErrNotRunning then ⟨none, c, log ++ [c.probeCmd]⟩
        else ⟨some err, c, log ++ [c.probeCmd]⟩ := by
  have hId2 : ¬ c.containerID.length = 0 := fun h => hId ((length_eq_zero_iff _).1 h)
  unfold Container.IsStopped Container.probeCmd
  simp only [hId2, if_false]

/-- What `IsExist` does on a handle with an identity. -/
theorem IsExist_of_id (eng : Engine) (log : List Invocation) (c : Container)
    (hId : c.containerID ≠ "") :
    c.IsExist eng log =
      match dockerError (eng log c.probeCmd).1 (eng log c.probeCmd).2 with
      | none => ⟨none, c, log ++ [c.probeCmd]⟩
      | some err =>
        if errorsIs err .ErrNotRunning then ⟨none, c, log ++ [c.probeCmd]⟩
        else ⟨some err, c, log ++ [c.probeCmd]⟩ := by
  have hId2 : ¬ c.containerID.length = 0 := fun h => hId ((length_eq_zero_iff _).1 h)
  unfold Container.IsExist Container.probeCmd
  simp only [hId2, if_false]

theorem dockerError_eq_none_iff (out : String) (e : Option GoError) :
    dockerError out e = none ↔ e = none := by
  cases e with
  | none => simp [dockerError]
  | some e =>
    simp only [dockerError]
    constructor
    · intro h
      split at h
      · cases h
      · split at h
        · cases h
        · split at h
          · cases h
          · cases h
    · intro h
      cases h

/-- C7: for every handle with a non-empty runtimeID and every reply of the probe (the
invocation `IsStopped` logs), `IsStopped` returns nil exactly when the classified probe result is an error of kind
NotRunning; it returns an error of kind AlreadyStarted when the probe invocation
succeeds; and in every other case it returns the classified probe error itself. -/
theorem IsStopped_classification (eng : Engine) (log : List Invocation) (c : Container)
    (hId : c.containerID ≠ "") :
    (c.IsStopped eng log).log = log ++ [c.probeCmd] ∧
    ((c.IsStopped eng log).err = none ↔
      ∃ e, dockerError (eng log c.probeCmd).1 (eng log c.probeCmd).2 = some e ∧
        errorsIs e .ErrNotRunning = true) ∧
    ((eng log c.probeCmd).2 = none →
      ∃ e, (c.IsStopped eng log).err = some e ∧ errorsIs e .ErrStarted = true) ∧
    (∀ e, dockerError (eng log c.probeCmd).1 (eng log c.probeCmd).2 = some e →
      errorsIs e .ErrNotRunning = false → (c.IsStopped eng log).err = some e) := by
  rw [IsStopped_of_id eng log c hId]
  refine ⟨?_, ?_, ?_, ?_⟩
  · split
    · rfl
    · split <;> rfl
  · cases hcls : dockerError (eng log c.probeCmd).1 (eng log c.probeCmd).2 with
    | none => simp
    | some err =>
      by_cases hk : errorsIs err .ErrNotRunning = true
      · simp [hk]
      · simp [hk]
  · intro hok
    rw [(dockerError_eq_none_iff _ _).2 hok]
    exact ⟨_, rfl, by decide⟩
  · intro e hcls hk
    rw [hcls]
    simp [hk]

theorem IsStopped_classification_witness :
    ((({} : Container).Attach "abc").IsStopped
        (constEngine "Error response from daemon: Container abc is not running"
          (some (.invocation "exit status 1"))) []).err = none :=
  (IsStopped_classification
    (constEngine "Error response from daemon: Container abc is not running"
      (some (.invocation "exit status 1"))) [] (({} : Container).Attach "abc")
    (by decide)).2.1.2
    ⟨.DockerError ErrNotRunning "Error response from daemon: Container abc is not running",
      by decide, by decide⟩

/-- C8: for every handle with a non-empty runtimeID and every reply of the probe (the
invocation `IsExist` logs), `IsExist` returns nil when the probe invocation succeeds and when the classified probe
result is an error of kind NotRunning, and in every other case it returns the classified
probe error itself. -/
theorem IsExist_classification (eng : Engine) (log : List Invocation) (c : Container)
    (hId : c.containerID ≠ "") :
    (c.IsExist eng log).log = log ++ [c.probeCmd] ∧
    ((eng log c.probeCmd).2 = none → (c.IsExist eng log).err = none) ∧
    (∀ e, dockerError (eng log c.probeCmd).1 (eng log c.probeCmd).2 = some e →
      errorsIs e .ErrNotRunning = true → (c.IsExist eng log).err = none) ∧
    (∀ e, dockerError (eng log c.probeCmd).1 (eng log c.probeCmd).2 = some e →
      errorsIs e .ErrNotRunning = false → (c.IsExist eng log).err = some e) := by
  rw [IsExist_of_id eng log c hId]
  refine ⟨?_, ?_, ?_, ?_⟩
  · split
    · rfl
    · split <;> rfl
  · intro hok
    rw [(dockerError_eq_none_iff _ _).2 hok]
  · intro e hcls hk
    rw [hcls]
    simp [hk]
  · intro e hcls hk
    rw [hcls]
    simp [hk]

theorem IsExist_classification_witness :
    ((({} : Container).Attach "abc").IsExist
        (constEngine "Error: No such container: abc"
          (some (.invocation "exit status 1"))) []).err =
      some (.DockerError ErrNotExist "Error: No such container: abc") :=
  (IsExist_classification
    (constEngine "Error: No such container: abc" (some (.invocation "exit status 1"))) []
    (({} : Container).Attach "abc") (by decide)).2.2.2
    (.DockerError ErrNotExist "Error: No such container: abc") (by decide) (by decide)

/-- C9: for every handle with a non-empty runtimeID: when the stop invocation succeeds,
`Stop(true)` is the call of `Delete` after it, the stop and then the remove invocation
are made, and if the remove invocation succeeds too the result is nil with an empty
runtimeID, so that `IsRunning` then returns `ErrIdNotSet`; when the stop invocation
fails, `Stop(true)` returns the classified stop error, makes no remove invocation and
leaves the handle unchanged. -/
theorem Stop_and_delete (eng : Engine) (log : List Invocation) (c : Container)
    (hId : c.containerID ≠ "") :
    ((eng log c.stopCmd).2 = none →
      c.Stop eng true log = c.Delete eng (log ++ [c.stopCmd]) ∧
      (c.Stop eng true log).log = log ++ [c.stopCmd, c.rmCmd] ∧
      ((eng (log ++ [c.stopCmd]) c.rmCmd).2 = none →
        (c.Stop eng true log).err = none ∧
        (c.Stop eng true log).c.containerID = "" ∧
        ∀ (eng2 : Engine) (log2 : List Invocation),
          ((c.Stop eng true log).c.IsRunning eng2 log2).err = some ErrIdNotSet)) ∧
    (∀ e, (eng log c.stopCmd).2 = some e →
      c.Stop eng true log =
        ⟨dockerError (eng log c.stopCmd).1 (some e), c, log ++ [c.stopCmd]⟩) := by
  have hId2 : ¬ c.containerID.length = 0 := fun h => hId ((length_eq_zero_iff _).1 h)
  constructor
  · intro hok
    have hstop : c.Stop eng true log = c.Delete eng (log ++ [c.stopCmd]) := by
      unfold Container.Stop Container.stopCmd
      unfold Container.stopCmd at hok
      simp only [hId2, if_false, hok, and_self, if_true]
    rw [hstop]
    refine ⟨rfl, ?_, ?_⟩
    · unfold Container.Delete
      simp only [hId2, if_false]
      split <;> simp [Container.rmCmd]
    · intro hrm
      unfold Container.Delete
      unfold Container.rmCmd at hrm
      simp only [hId2, if_false, hrm]
      refine ⟨trivial, trivial, ?_⟩
      intro eng2 log2
      simp [Container.IsRunning]
  · intro e he
    unfold Container.Stop Container.stopCmd
    unfold Container.stopCmd at he
    simp [hId2, he]

theorem Stop_and_delete_witness :
    (Container.Stop (constEngine "abc\n" none) (({} : Container).Attach "abc") true []).err =
      none ∧
    (Container.Stop (constEngine "abc\n" none)
      (({} : Container).Attach "abc") true []).c.containerID = "" :=
  have h := ((Stop_and_delete (constEngine "abc\n" none) [] (({} : Container).Attach "abc")
    (by decide)).1 rfl).2.2 rfl
  ⟨h.1, h.2.1⟩

/-- A `Delete` that returns nil leaves an empty runtimeID. -/
theorem Delete_nil_clears (c0 : Container) (eng0 : Engine) (log0 : List Invocation) :
    (c0.Delete eng0 log0).err = none → (c0.Delete eng0 log0).c.containerID = "" := by
  unfold Container.Delete
  by_cases h0 : c0.containerID.length = 0
  · simp [h0]
  · simp only [h0, if_false]
    cases hrep : (eng0 log0 ⟨c0.Docker, ["rm", c0.containerID]⟩).2 with
    | none => simp
    | some e =>
      simp only
      intro h
      exact absurd ((dockerError_eq_none_iff _ _).1 h) (by simp)

/-- C10: for every handle whose runtimeID is empty, each of `Stop(false)`, `Stop(true)`,
`Delete`, `IsRunning`, `IsStopped` and `IsExist` returns `ErrIdNotSet`, makes no
invocation and leaves every field of the handle unchanged; and the runtimeID is empty
after `Detach`, after a `Delete` that returns nil and after a `Stop(true)` that returns
nil. -/
theorem identity_required (eng : Engine) (log : List Invocation) (c : Container)
    (hId : c.containerID = "") :
    c.Stop eng false log = ⟨some ErrIdNotSet, c, log⟩ ∧
    c.Stop eng true log = ⟨some ErrIdNotSet, c, log⟩ ∧
    c.Delete eng log = ⟨some ErrIdNotSet, c, log⟩ ∧
    c.IsRunning eng log = ⟨some ErrIdNotSet, c, log⟩ ∧
    c.IsStopped eng log = ⟨some ErrIdNotSet, c, log⟩ ∧
    c.IsExist eng log = ⟨some ErrIdNotSet, c, log⟩ ∧
    (∀ c0 : Container, c0.Detach.containerID = "") ∧
    (∀ (c0 : Container) (eng0 : Engine) (log0 : List Invocation),
      (c0.Delete eng0 log0).err = none → (c0.Delete eng0 log0).c.containerID = "") ∧
    (∀ (c0 : Container) (eng0 : Engine) (log0 : List Invocation),
      (c0.Stop eng0 true log0).err = none →
        (c0.Stop eng0 true log0).c.containerID = "") := by
  have hId2 : c.containerID.length = 0 := (length_eq_zero_iff _).2 hId
  refine ⟨?_, ?_, ?_, ?_, ?_, ?_, fun _ => rfl, Delete_nil_clears, ?_⟩
  · simp only [Container.Stop, hId2, if_true]
  · simp only [Container.Stop, hId2, if_true]
  · simp only [Container.Delete, hId2, if_true]
  · simp only [Container.IsRunning, hId2, if_true]
  · simp only [Container.IsStopped, hId2, if_true]
  · simp only [Container.IsExist, hId2, if_true]
  · intro c0 eng0 log0
    unfold Container.Stop
    by_cases h0 : c0.containerID.length = 0
    · simp [h0]
    · simp only [h0, if_false]
      cases hrep : (eng0 log0 ⟨c0.Docker, ["stop", c0.containerID]⟩).2 with
      | none =>
        simp only [true_and, if_true]
        exact Delete_nil_clears c0 eng0 _
      | some e =>
        simp only [false_and, if_false, reduceCtorEq]
        intro h
        exact absurd ((dockerError_eq_none_iff _ _).1 h) (by simp)

theorem identity_required_witness :
    Container.IsRunning (constEngine "" none) ({ Image := "redis" } : Container).Detach [] =
      ⟨some ErrIdNotSet, ({ Image := "redis" } : Container).Detach, []⟩ :=
  (identity_required (constEngine "" none) [] ({ Image := "redis" } : Container).Detach
    rfl).2.2.2.1

/-- C11: for every handle with a non-empty runtimeID, `Delete` makes one invocation, with
the argument list `[rm, runtimeID]`; when it succeeds `Delete` returns nil and runtimeID
becomes empty (nothing else changes); when it fails `Delete` returns `dockerError` of the
output and the invocation error and the handle is unchanged. -/
theorem Delete_of_id (eng : Engine) (log : List Invocation) (c : Container)
    (hId : c.containerID ≠ "") :
    (c.Delete eng log).log = log ++ [⟨c.Docker, ["rm", c.containerID]⟩] ∧
    ((eng log ⟨c.Docker, ["rm", c.containerID]⟩).2 = none →
      (c.Delete eng log).err = none ∧
      (c.Delete eng log).c = { c with containerID := "" }) ∧
    (∀ e, (eng log ⟨c.Docker, ["rm", c.containerID]⟩).2 = some e →
      (c.Delete eng log).err =
        dockerError (eng log ⟨c.Docker, ["rm", c.containerID]⟩).1 (some e) ∧
      (c.Delete eng log).c = c) := by
  have hId2 : ¬ c.containerID.length = 0 := fun h => hId ((length_eq_zero_iff _).1 h)
  unfold Container.Delete
  simp only [hId2, if_false]
  refine ⟨?_, ?_, ?_⟩
  · split <;> rfl
  · intro hok
    rw [hok]
    exact ⟨rfl, rfl⟩
  · intro e he
    rw [he]
    exact ⟨rfl, rfl⟩

theorem Delete_of_id_witness :
    (Container.Delete (constEngine "abc\n" none)
      (({ Image := "redis" } : Container).Attach "abc") []).err = none ∧
    (Container.Delete (constEngine "abc\n" none)
      (({ Image := "redis" } : Container).Attach "abc") []).c =
      { (({ Image := "redis" } : Container).Attach "abc") with containerID := "" } :=
  (Delete_of_id (constEngine "abc\n" none) []
    (({ Image := "redis" } : Container).Attach "abc") (by decide)).2.1 rfl

/-- C12: for every handle with a non-empty runtimeID, `Stop(false)` makes one invocation,
with the argument list `[stop, runtimeID]`, leaves the handle unchanged whatever the
reply, and returns `dockerError` of the output and the invocation error: nil when the
invocation succeeds. A second `Stop(false)` whose invocation succeeds returns nil
again. -/
theorem Stop_keep_of_id (eng : Engine) (log : List Invocation) (c : Container)
    (hId : c.containerID ≠ "") :
    (c.Stop eng false log).log = log ++ [⟨c.Docker, ["stop", c.containerID]⟩] ∧
    (c.Stop eng false log).c = c ∧
    (c.Stop eng false log).err =
      dockerError (eng log ⟨c.Docker, ["stop", c.containerID]⟩).1
        (eng log ⟨c.Docker, ["stop", c.containerID]⟩).2 ∧
    ((eng log ⟨c.Docker, ["stop", c.containerID]⟩).2 = none →
      (c.Stop eng false log).err = none) ∧
    (∀ (eng2 : Engine) (log2 : List Invocation),
      (eng2 log2 ⟨c.Docker, ["stop", c.containerID]⟩).2 = none →
      ((c.Stop eng false log).c.Stop eng2 false log2).err = none) := by
  have hId2 : ¬ c.containerID.length = 0 := fun h => hId ((length_eq_zero_iff _).1 h)
  have hstop : ∀ (eng1 : Engine) (log1 : List Invocation),
      c.Stop eng1 false log1 =
        ⟨dockerError (eng1 log1 ⟨c.Docker, ["stop", c.containerID]⟩).1
            (eng1 log1 ⟨c.Docker, ["stop", c.containerID]⟩).2,
          c, log1 ++ [⟨c.Docker, ["stop", c.containerID]⟩]⟩ := by
    intro eng1 log1
    unfold Container.Stop
    simp [hId2]
  refine ⟨?_, ?_, ?_, ?_, ?_⟩
  · rw [hstop]
  · rw [hstop]
  · rw [hstop]
  · intro hok
    rw [hstop]
    exact (dockerError_eq_none_iff _ _).2 hok
  · intro eng2 log2 hok
    rw [hstop eng log]
    show (c.Stop eng2 false log2).err = none
    rw [hstop eng2 log2]
    exact (dockerError_eq_none_iff _ _).2 hok

theorem Stop_keep_of_id_witness :
    (Container.Stop (constEngine "abc\n" none)
      (({ Image := "redis" } : Container).Attach "abc") false []).err = none :=
  (Stop_keep_of_id (constEngine "abc\n" none) []
    (({ Image := "redis" } : Container).Attach "abc") (by decide)).2.2.2.1 rfl

/-! ## The argument list of `Start` -/

theorem foldl_flag (flag : String) (l : List String) :
    ∀ init : List String,
      l.foldl (fun opts x => opts ++ [flag, x]) init =
        init ++ l.flatMap (fun x => [flag, x]) := by
  induction l with
  | nil => intro init; simp
  | cons a t ih =>
    intro init
    rw [List.foldl_cons, ih, List.flatMap_cons, List.append_assoc]

theorem startOpts_defaulted (c : Container) : c.defaulted.startOpts = c.startArgsRef := by
  have hname : (if c.Name.length > 0 then ["run", "-d"] ++ ["--name", c.Name]
      else ["run", "-d"]) = ["run", "-d"] ++ (if c.Name = "" then [] else ["--name", c.Name]) := by
    by_cases hn : c.Name = ""
    · rw [if_neg (by rw [hn]; decide), if_pos hn]
      rfl
    · rw [if_pos ((length_pos_iff _).2 hn), if_neg hn]
  have htag : (if c.Tag.length = 0 then "latest" else c.Tag) =
      (if c.Tag = "" then "latest" else c.Tag) := by
    by_cases ht : c.Tag = ""
    · rw [if_pos ((length_eq_zero_iff _).2 ht), if_pos ht]
    · rw [if_neg (fun h => ht ((length_eq_zero_iff _).1 h)), if_neg ht]
  simp only [Container.startOpts, Container.defaulted, Container.startArgsRef, foldl_flag,
    hname, htag]

theorem Start_log_of_ready (eng : Engine) (log : List Invocation) (c : Container)
    (hImg : c.Image ≠ "") (hId : c.containerID = "") :
    (c.Start eng log).log = log ++ [c.startCmd] := by
  rw [Start_of_ready eng log c hImg hId]
  split
  · split <;> rfl
  · rfl

/-- C13: for every handle with a non-empty image and an empty runtimeID, `Start` makes one
invocation, of the binary `docker` when the handle names none, whose argument list is
exactly `run`, `-d`, then `--name` and the name if there is one, then `-p e` for each
exposed port, `-v v` for each volume, `--link l` for each link, `--ulimit u` for each
limit, each in its order, then `image:tag` with the tag `latest` when the handle has
none. -/
theorem Start_argument_list (eng : Engine) (log : List Invocation) (c : Container)
    (hImg : c.Image ≠ "") (hId : c.containerID = "") :
    (c.Start eng log).log =
      log ++ [⟨if c.Docker = "" then "docker" else c.Docker, c.startArgsRef⟩] := by
  rw [Start_log_of_ready eng log c hImg hId]
  have hbin : c.defaulted.Docker = (if c.Docker = "" then "docker" else c.Docker) := by
    by_cases hd : c.Docker = ""
    · simp only [Container.defaulted]
      rw [if_pos ((length_eq_zero_iff _).2 hd), if_pos hd]
    · simp only [Container.defaulted]
      rw [if_neg (fun h => hd ((length_eq_zero_iff _).1 h)), if_neg hd]
  simp only [Container.startCmd, startOpts_defaulted, hbin]

theorem Start_argument_list_witness :
    (Container.Start (constEngine "0123abc\n" none)
      { Image := "redis", Name := "r1", Exposes := ["6379:6379"], Volumes := ["/d:/data"],
        Links := ["db"], Limits := ["nofile=1024:1024"] } []).log =
      [⟨"docker", ["run", "-d", "--name", "r1", "-p", "6379:6379", "-v", "/d:/data",
        "--link", "db", "--ulimit", "nofile=1024:1024", "redis:latest"]⟩] :=
  Start_argument_list (constEngine "0123abc\n" none) []
    { Image := "redis", Name := "r1", Exposes := ["6379:6379"], Volumes := ["/d:/data"],
      Links := ["db"], Limits := ["nofile=1024:1024"] } (by decide) rfl

/-- C14 (evaluation at the failing input): a handle with the environment variable `A=1`
starts with the invocation `docker run -d redis:latest`; the element of `Envs` is not
among the arguments, and the invocation is the one made without any `Envs`. -/
theorem Start_drops_Envs :
    (Container.Start (constEngine "0123abc\n" none)
      { Image := "redis", Envs := ["A=1"] } []).log =
      [⟨"docker", ["run", "-d", "redis:latest"]⟩] ∧
    "A=1" ∉ ["run", "-d", "redis:latest"] ∧
    (Container.Start (constEngine "0123abc\n" none)
      { Image := "redis", Envs := ["A=1"] } []).log =
      (Container.Start (constEngine "0123abc\n" none) { Image := "redis" } []).log := by
  refine ⟨?_, ?_, ?_⟩ <;> decide

/-- C15 (evaluation at the failing input): on a fresh handle given the identity `abc` by
`Attach`, each of `Stop`, `Delete`, `IsRunning`, `IsStopped` and `IsExist` invokes the
binary with the empty name, not `docker`, and `IsRunning` then returns the invocation
error as it is; `Start` on a fresh handle with an image does invoke `docker`. -/
theorem empty_binary_after_Attach :
    (Container.Stop (constEngine "" (some (.invocation "exec: \"\": executable file not found in $PATH")))
      (({} : Container).Attach "abc") false []).log = [⟨"", ["stop", "abc"]⟩] ∧
    (Container.Stop (constEngine "" (some (.invocation "exec: \"\": executable file not found in $PATH")))
      (({} : Container).Attach "abc") true []).log = [⟨"", ["stop", "abc"]⟩] ∧
    (Container.Delete (constEngine "" (some (.invocation "exec: \"\": executable file not found in $PATH")))
      (({} : Container).Attach "abc") []).log = [⟨"", ["rm", "abc"]⟩] ∧
    (Container.IsRunning (constEngine "" (some (.invocation "exec: \"\": executable file not found in $PATH")))
      (({} : Container).Attach "abc") []).log = [⟨"", ["top", "abc"]⟩] ∧
    (Container.IsStopped (constEngine "" (some (.invocation "exec: \"\": executable file not found in $PATH")))
      (({} : Container).Attach "abc") []).log = [⟨"", ["top", "abc"]⟩] ∧
    (Container.IsExist (constEngine "" (some (.invocation "exec: \"\": executable file not found in $PATH")))
      (({} : Container).Attach "abc") []).log = [⟨"", ["top", "abc"]⟩] ∧
    (Container.IsRunning (constEngine "" (some (.invocation "exec: \"\": executable file not found in $PATH")))
      (({} : Container).Attach "abc") []).err =
      some (.DockerError (.invocation "exec: \"\": executable file not found in $PATH") "") ∧
    (Container.Start (constEngine "0123abc\n" none) { Image := "redis" } []).log =
      [⟨"docker", ["run", "-d", "redis:latest"]⟩] := by
  refine ⟨?_, ?_, ?_, ?_, ?_, ?_, ?_, ?_⟩ <;> decide

/-- C16: the kind of a `DockerError` does not depend on its output text: the is-kind test
of `DockerError{K, o1}` and of `DockerError{K, o2}` against any kind agree, a
`DockerError` of kind `v` tests as `v` whatever its text, and it tests as another kind
only if that kind is `v`. -/
theorem kind_independent_of_output (K : GoError) (v target : Sentinel) (o o1 o2 : String) :
    errorsIs (.DockerError K o1) target = errorsIs (.DockerError K o2) target ∧
    errorsIs (.DockerError (.sentinel v) o) v = true ∧
    (errorsIs (.DockerError (.sentinel v) o) target = true ↔ v = target) := by
  refine ⟨?_, ?_, ?_⟩
  · simp only [errorsIs]
  · simp only [errorsIs, decide_True]
  · simp only [errorsIs, decide_eq_true_eq]

/-- C17: for every handle with a non-empty runtimeID, `IsRunning` makes one invocation,
with the argument list `[top, runtimeID]`, returns `dockerError` of the output and the
invocation error, which is nil exactly when the invocation reports no error; and
`IsRunning` never changes the handle. -/
theorem IsRunning_of_id (eng : Engine) (log : List Invocation) (c : Container)
    (hId : c.containerID ≠ "") :
    (c.IsRunning eng log).log = log ++ [⟨c.Docker, ["top", c.containerID]⟩] ∧
    (c.IsRunning eng log).err =
      dockerError (eng log ⟨c.Docker, ["top", c.containerID]⟩).1
        (eng log ⟨c.Docker, ["top", c.containerID]⟩).2 ∧
    ((c.IsRunning eng log).err = none ↔
      (eng log ⟨c.Docker, ["top", c.containerID]⟩).2 = none) ∧
    (∀ (c0 : Container) (eng0 : Engine) (log0 : List Invocation),
      (c0.IsRunning eng0 log0).c = c0) := by
  have hId2 : ¬ c.containerID.length = 0 := fun h => hId ((length_eq_zero_iff _).1 h)
  have hrun : c.IsRunning eng log =
      ⟨dockerError (eng log ⟨c.Docker, ["top", c.containerID]⟩).1
          (eng log ⟨c.Docker, ["top", c.containerID]⟩).2,
        c, log ++ [⟨c.Docker, ["top", c.containerID]⟩]⟩ := by
    unfold Container.IsRunning
    simp only [hId2, if_false]
  refine ⟨?_, ?_, ?_, ?_⟩
  · rw [hrun]
  · rw [hrun]
  · rw [hrun]
    exact dockerError_eq_none_iff _ _
  · intro c0 eng0 log0
    unfold Container.IsRunning
    split <;> rfl

theorem IsRunning_of_id_witness :
    (Container.IsRunning (constEngine "Error: No such container: abc"
        (some (.invocation "exit status 1"))) (({} : Container).Attach "abc") []).err =
      dockerError "Error: No such container: abc" (some (.invocation "exit status 1")) :=
  (IsRunning_of_id (constEngine "Error: No such container: abc"
    (some (.invocation "exit status 1"))) [] (({} : Container).Attach "abc")
    (by decide)).2.1

/-! ## The frame of `Start` and the text of errors -/

/-- What `Start` does on a handle without an image. -/
theorem Start_of_no_image (eng : Engine) (log : List Invocation) (c : Container)
    (hImg : c.Image = "") :
    c.Start eng log =
      ⟨some (.errorf "image not set"),
        { c with Docker := if c.Docker.length = 0 then "docker" else c.Docker }, log⟩ := by
  have hImg2 : c.Image.length = 0 := (length_eq_zero_iff _).2 hImg
  unfold Container.Start
  by_cases hD : c.Docker.length = 0 <;> simp [hD, hImg2]

/-- What `Start` does on a handle with an image and an identity. -/
theorem Start_of_started (eng : Engine) (log : List Invocation) (c : Container)
    (hImg : c.Image ≠ "") (hId : c.containerID ≠ "") :
    c.Start eng log = ⟨some ErrStarted, c.defaulted, log⟩ := by
  have hImg2 : ¬ c.Image.length = 0 := fun h => hImg ((length_eq_zero_iff _).1 h)
  have hId2 : c.containerID.length > 0 := (length_pos_iff _).2 hId
  unfold Container.Start Container.defaulted
  by_cases hD : c.Docker.length = 0 <;> by_cases hT : c.Tag.length = 0 <;>
    simp [hD, hT, hImg2, hId2]

/-- The handle after `Start` is the handle with its defaults, up to the runtimeID, once
the image check has passed. -/
theorem Start_handle_of_image (eng : Engine) (log : List Invocation) (c : Container)
    (hImg : c.Image ≠ "") :
    ∃ id, (c.Start eng log).c = { c.defaulted with containerID := id } ∧
      (id = c.containerID ∨ c.containerID = "") := by
  by_cases hId : c.containerID = ""
  · rw [Start_of_ready eng log c hImg hId]
    split
    · split
      · exact ⟨_, rfl, Or.inr hId⟩
      · exact ⟨c.containerID, rfl, Or.inl rfl⟩
    · exact ⟨c.containerID, rfl, Or.inl rfl⟩
  · rw [Start_of_started eng log c hImg hId]
    exact ⟨c.containerID, rfl, Or.inl rfl⟩

theorem ite_length_eq (s d : String) :
    (if s.length = 0 then d else s) = (if s = "" then d else s) := by
  by_cases h : s = ""
  · rw [if_pos ((length_eq_zero_iff _).2 h), if_pos h]
  · rw [if_neg (fun h0 => h ((length_eq_zero_iff _).1 h0)), if_neg h]

/-- C18: `Start` leaves image, name and the five option sequences as they are on every
call; the binary name becomes `docker` exactly when it was empty, on every call, failing
ones included; the tag is untouched when the image is empty and otherwise becomes
`latest` exactly when it was empty, also when the call fails with AlreadyStarted; the
runtimeID changes only if it was empty. So a failing `Start` on a handle without a
binary name returns a handle different from the one it was given. -/
theorem Start_frame (eng : Engine) (log : List Invocation) (c : Container) :
    (c.Start eng log).c.Image = c.Image ∧
    (c.Start eng log).c.Name = c.Name ∧
    (c.Start eng log).c.Exposes = c.Exposes ∧
    (c.Start eng log).c.Volumes = c.Volumes ∧
    (c.Start eng log).c.Links = c.Links ∧
    (c.Start eng log).c.Limits = c.Limits ∧
    (c.Start eng log).c.Envs = c.Envs ∧
    (c.Start eng log).c.Docker = (if c.Docker = "" then "docker" else c.Docker) ∧
    (c.Image = "" → (c.Start eng log).c.Tag = c.Tag) ∧
    (c.Image ≠ "" →
      (c.Start eng log).c.Tag = (if c.Tag = "" then "latest" else c.Tag)) ∧
    ((c.Start eng log).c.containerID = c.containerID ∨ c.containerID = "") ∧
    (c.Image = "" → c.Docker = "" →
      (c.Start eng log).err ≠ none ∧ (c.Start eng log).c ≠ c) ∧
    (c.Image ≠ "" → c.containerID ≠ "" → c.Tag = "" →
      (c.Start eng log).err = some ErrStarted ∧ (c.Start eng log).c ≠ c) := by
  by_cases hImg : c.Image = ""
  · rw [Start_of_no_image eng log c hImg]
    refine ⟨rfl, rfl, rfl, rfl, rfl, rfl, rfl, ite_length_eq _ _, fun _ => rfl,
      fun h => absurd hImg h, Or.inl rfl, ?_, fun h => absurd hImg h⟩
    intro _ hD
    refine ⟨by simp, ?_⟩
    intro heq
    have hdock := congrArg Container.Docker heq
    simp only [hD] at hdock
    revert hdock
    decide
  · obtain ⟨id, hc, hid⟩ := Start_handle_of_image eng log c hImg
    rw [hc]
    refine ⟨rfl, rfl, rfl, rfl, rfl, rfl, rfl, ite_length_eq _ _, fun h => absurd h hImg,
      fun _ => ite_length_eq _ _, ?_, fun h => absurd h hImg, ?_⟩
    · rcases hid with h | h
      · exact Or.inl h
      · exact Or.inr h
    · intro _ hId hT
      rw [Start_of_started eng log c hImg hId]
      refine ⟨rfl, ?_⟩
      intro heq
      have htag := congrArg Container.Tag heq
      simp only [Container.defaulted, hT] at htag
      revert htag
      decide

theorem Start_frame_witness :
    (Container.Start (constEngine "" none) {} []).err ≠ none ∧
    (Container.Start (constEngine "" none) {} []).c ≠ {} :=
  (Start_frame (constEngine "" none) [] {}).2.2.2.2.2.2.2.2.2.2.2.1 rfl rfl

/-- C19: the text of a `DockerError` of kind `K` is the text of `K` alone when the output
is empty and the text of `K`, then `": "`, then the output otherwise; the error
`IsStopped` returns for a running container has exactly the text
`container is started`. -/
theorem DockerError_text (K : GoError) (o : String) (eng : Engine)
    (log : List Invocation) (c : Container) :
    (GoError.DockerError K "").Error = K.Error ∧
    (o ≠ "" → (GoError.DockerError K o).Error = K.Error ++ ": " ++ o) ∧
    (c.containerID ≠ "" → (eng log ⟨c.Docker, ["top", c.containerID]⟩).2 = none →
      ∃ e, (c.IsStopped eng log).err = some e ∧ errorsIs e .ErrStarted = true ∧
        e.Error = "container is started") := by
  refine ⟨?_, ?_, ?_⟩
  · simp [GoError.Error]
  · intro ho
    have hlen : ¬ o.length = 0 := fun h => ho ((length_eq_zero_iff _).1 h)
    simp only [GoError.Error, if_neg hlen]
  · intro hId hok
    rw [IsStopped_of_id eng log c hId]
    have hcls : dockerError (eng log c.probeCmd).1 (eng log c.probeCmd).2 = none :=
      (dockerError_eq_none_iff _ _).2 hok
    rw [hcls]
    exact ⟨_, rfl, by decide, by decide⟩

theorem DockerError_text_witness :
    (GoError.DockerError ErrNotExist "Error: No such container: abc").Error =
      "container not exist: Error: No such container: abc" :=
  (DockerError_text ErrNotExist "Error: No such container: abc" (constEngine "" none) []
    {}).2.1 (by decide)

end DockerWrapper
